import Mathlib

/-!
Verification of the Hippomem/memlayer memory engine core against its
natural-language specification.  The Lean definitions below are shallow
embeddings of the Python source under `src/memlayer/`: pure computations
become Lean functions, the SQLite tables become explicit lists of rows, and
each mutating operation becomes a state-passing function on that database
value.  Nondeterministic inputs of the source (UUIDs, wall-clock timestamps)
are threaded as explicit arguments.
-/

namespace Hippomem

/-! ### Scoring weights and candidate scoring, from `memlayer/core/retrieval.py` -/

def W_CONFIDENCE : ℚ := 0.40

def W_FRESHNESS : ℚ := 0.15

def W_TYPE : ℚ := 0.10

def W_VECTOR : ℚ := 0.35

/-- One candidate row of the unioned L1/L2 FTS query in `search_memory`
(the columns the scoring loop actually reads). -/
structure Candidate where
  rowId : String
  ty : String
  confidence : ℚ
  rank : ℚ
  vectorDist : Option ℚ
deriving DecidableEq

/-- Type boost from the scoring loop of `search_memory`. -/
def typeBoost (t : String) : ℚ :=
  if t = "Decision" ∨ t = "Contract" ∨ t = "VerifiedFact" then 1.0
  else if t = "EpisodeSummary" then 0.8
  else 0.5

/-- The fused score computed for one row by `search_memory` (retrieval.py
lines 176-232).  The source sets `freshness = 1.0` unconditionally (the
`last_confirmed_at` parsing is commented out), computes
`vec_score = 1/(1+dist)` with `w_vec = W_VECTOR` when a query embedding was
supplied (0 otherwise), and uses `fts_score = -rank`. -/
def scoreRow (hasQueryEmbedding : Bool) (row : Candidate) : ℚ :=
  let freshness : ℚ := 1.0
  let vecPair : ℚ × ℚ :=
    if hasQueryEmbedding = false then (0, 0)
    else
      match row.vectorDist with
      | some d => (1.0 / (1.0 + d), W_VECTOR)
      | none => (0, W_VECTOR)
  let ftsScore : ℚ := -1.0 * row.rank
  W_CONFIDENCE * row.confidence + W_FRESHNESS * freshness
    + W_TYPE * typeBoost row.ty + vecPair.2 * vecPair.1 + 0.5 * ftsScore

/-- The scoring loop applied to the candidate list (`scored_items` in
`search_memory`). -/
def scoreCandidates (hasQueryEmbedding : Bool) (rows : List Candidate) :
    List (ℚ × Candidate) :=
  rows.map (fun r => (scoreRow hasQueryEmbedding r, r))

/-- The fused-score formula exactly as the specification states it, with the
freshness term `exp(-days_since_last_confirmed / 180)` (1.0 if unknown).
Written from the spec's words, to be compared against `scoreRow`. -/
noncomputable def specFusedScore (hasQueryEmbedding : Bool) (row : Candidate)
    (daysSinceLastConfirmed : Option ℝ) : ℝ :=
  let freshness : ℝ :=
    match daysSinceLastConfirmed with
    | some d => Real.exp (-d / 180)
    | none => 1.0
  let wVec : ℝ := if hasQueryEmbedding then 0.35 else 0
  let vecSim : ℝ :=
    match row.vectorDist with
    | some d => 1 / (1 + (d : ℝ))
    | none => 0
  0.40 * (row.confidence : ℝ) + 0.15 * freshness
    + 0.10 * (typeBoost row.ty : ℝ) + wVec * vecSim + 0.50 * (-(row.rank : ℝ))

/-- The fused-score formula with the freshness term replaced by the constant
1.0, which is what the code computes; spec-side statement of the amended
claim. -/
def amendedFusedScore (hasQueryEmbedding : Bool) (row : Candidate) : ℚ :=
  let wVec : ℚ := if hasQueryEmbedding then 0.35 else 0
  let vecSim : ℚ :=
    match row.vectorDist with
    | some d => 1 / (1 + d)
    | none => 0
  0.40 * row.confidence + 0.15 * 1.0 + 0.10 * typeBoost row.ty
    + wVec * vecSim + 0.50 * (-row.rank)

/-! ### Evidence-view artifact entries, from `package_results` in retrieval.py -/

/-- The columns of a `memory_artifacts` row that the evidence view reads. -/
structure ArtifactRow where
  memoryId : String
  layer : String
  kind : String
  locator : String
  snippetPolicy : String
deriving DecidableEq

/-- One entry of the `artifacts` list built by `package_results` in the
evidence view.  `snippet = none` models the absence of the `snippet` key. -/
structure ArtifactEntry where
  kind : String
  locator : String
  snippetPolicy : String
  snippet : Option String
deriving DecidableEq

/-- Artifact-entry construction from `package_results` (retrieval.py lines
338-361).  `fs locator` abstracts the file system: `some c` is the decoded
content of a readable regular file at `locator`, `none` means the file is
absent or the read raised.  When `snippet_policy = "allowed"` the code starts
from the placeholder string, overwrites it with the first 1024 characters read
when `kind = "file"` and the read succeeds, and always stores the `snippet`
key; when the policy is not "allowed" no `snippet` key is written. -/
def mkArtifactEntry (fs : String → Option String) (art : ArtifactRow) :
    ArtifactEntry :=
  if art.snippetPolicy = "allowed" then
    let snippet : String :=
      if art.kind = "file" then
        match fs art.locator with
        | some content => content.take 1024
        | none => "[Content placeholder]"
      else "[Content placeholder]"
    { kind := art.kind, locator := art.locator,
      snippetPolicy := art.snippetPolicy, snippet := some snippet }
  else
    { kind := art.kind, locator := art.locator,
      snippetPolicy := art.snippetPolicy, snippet := none }

/-- Artifact-entry construction exactly as the specification states it: read
up to 1024 bytes and include them as the snippet; omit the snippet field when
the read fails or the file is absent.  Written from the spec's words, to be
compared against `mkArtifactEntry`. -/
def specArtifactEntry (fs : String → Option String) (art : ArtifactRow) :
    ArtifactEntry :=
  if art.snippetPolicy = "allowed" ∧ art.kind = "file" then
    { kind := art.kind, locator := art.locator,
      snippetPolicy := art.snippetPolicy,
      snippet := (fs art.locator).map (fun c => c.take 1024) }
  else
    { kind := art.kind, locator := art.locator,
      snippetPolicy := art.snippetPolicy, snippet := none }

/-! ### Token-budgeted result packaging, from `package_results` in retrieval.py -/

/-- The truncation record returned by `package_results`. -/
structure Truncation where
  truncated : Bool
  reason : Option String
  remainingBudget : Nat
deriving DecidableEq

/-- The packaged result of `package_results`: the included items, the
truncation record, and `token_estimate_used`. -/
structure Packaged (α : Type) where
  items : List α
  truncation : Truncation
  tokenEstimateUsed : Nat
deriving DecidableEq

/-- The accumulation loop of `package_results` (retrieval.py lines 307-372).
`serialize` abstracts `json.dumps` of the fully expanded item for the chosen
view; the cost of an item is `len(serialized) // 4`.  The first item whose
inclusion would exceed the budget sets `truncated` and breaks the loop. -/
def packageLoop (serialize : α → String) (budget : Nat) :
    List α → Nat → List α → Packaged α
  | [], usedTokens, acc =>
      { items := acc.reverse,
        truncation :=
          { truncated := false, reason := none,
            remainingBudget := budget - usedTokens },
        tokenEstimateUsed := usedTokens }
  | row :: rest, usedTokens, acc =>
      let itemCost := (serialize row).length / 4
      if usedTokens + itemCost > budget then
        { items := acc.reverse,
          truncation :=
            { truncated := true, reason := some "TOKEN_BUDGET",
              remainingBudget := budget - usedTokens },
          tokenEstimateUsed := usedTokens }
      else
        packageLoop serialize budget rest (usedTokens + itemCost) (row :: acc)

/-- Entry point of the packaging loop of `package_results`. -/
def packageResults (serialize : α → String) (rows : List α) (budget : Nat) :
    Packaged α :=
  packageLoop serialize budget rows 0 []

/-! ### JSON serialization helpers (modelling `json.dumps` on the flat values
the engine stores) -/

/-- Escape one character the way `json.dumps` does for the characters the
engine's strings can contain. -/
def jsonEscapeChar (c : Char) : String :=
  if c = '"' then "\\\""
  else if c = '\\' then "\\\\"
  else if c = '\n' then "\\n"
  else if c = '\t' then "\\t"
  else if c = '\r' then "\\r"
  else String.singleton c

/-- Serialization of a string literal, as `json.dumps` renders it. -/
def jsonStr (s : String) : String :=
  "\"" ++ String.join (s.data.map jsonEscapeChar) ++ "\""

/-- Serialization of a list of strings with `json.dumps` default separators. -/
def jsonStrList (l : List String) : String :=
  "[" ++ String.intercalate ", " (l.map jsonStr) ++ "]"

/-- A flat JSON value, covering what selector / applicability dictionaries of
this engine hold. -/
inductive JVal where
  | null
  | s (v : String)
  | i (v : Int)
deriving DecidableEq

/-- Serialization of one flat JSON value, as `json.dumps` renders it. -/
def jvalDump : JVal → String
  | .null => "null"
  | .s v => jsonStr v
  | .i v => toString v

/-- Serialization of a JSON object in the given key order, with `json.dumps`
default separators. -/
def jsonObjDump (entries : List (String × JVal)) : String :=
  "\x7b" ++
    String.intercalate ", "
      (entries.map (fun e => jsonStr e.1 ++ ": " ++ jvalDump e.2)) ++
  "\x7d"

/-! ### Data model rows, from `memlayer/db.py` and `memlayer/models.py` -/

/-- The addressing tuple (`Scope` in models.py). -/
structure Scope where
  tenantId : String
  workspaceId : String
  repoId : Option String := none
  module : Option String := none
  environment : Option String := none
  userId : Option String := none
  sessionId : Option String := none
  taskId : Option String := none
deriving DecidableEq

/-- Python truthiness of an `Optional[str]` (None and "" are falsy). -/
def optTruthy : Option String → Bool
  | none => false
  | some s => s ≠ ""

/-- The payload of `event upsert` (`EventPayload` in models.py). -/
structure EventPayload where
  content : String
  metadata : Option (List (String × JVal)) := none
deriving DecidableEq

/-- Serialization of `payload.dict()` for the L0 row, as `json.dumps` renders
it with the model's field order. -/
def eventPayloadJson (p : EventPayload) : String :=
  "\x7b" ++ jsonStr "content" ++ ": " ++ jsonStr p.content ++ ", " ++
    jsonStr "metadata" ++ ": " ++
    (match p.metadata with
     | none => "null"
     | some m => jsonObjDump m) ++ "\x7d"

/-- The payload of `episode commit` (`EpisodePayload` in models.py). -/
structure EpisodePayload where
  title : String
  summary : String
  tags : List String := []
  entities : List String := []
  claims : List String := []
  applicability : List (String × JVal) := []
deriving DecidableEq

/-- The promotion draft (`L2DraftPayload` in models.py). -/
structure L2Draft where
  ty : String
  title : String
  summary : String
  tags : List String := []
  entities : List String := []
  claims : List String := []
  applicability : List (String × JVal) := []
deriving DecidableEq

/-- The incoming artifact reference (`ArtifactRef` in models.py). -/
structure ArtifactRef where
  memoryId : String
  layer : String
  kind : String
  locator : String
  hash : Option String := none
  classification : String
  snippetPolicy : String
deriving DecidableEq

/-- A row of `memory_l0`. -/
structure L0Row where
  id : String
  tenantId : String
  workspaceId : String
  repoId : Option String
  sessionId : Option String
  taskId : Option String
  payloadJson : String
  expiresAt : String
deriving DecidableEq

/-- A row of `memory_l1`. -/
structure L1Row where
  id : String
  tenantId : String
  workspaceId : String
  repoId : Option String
  module : Option String
  environment : Option String
  userId : Option String
  sessionId : Option String
  taskId : Option String
  ty : String
  status : String
  title : String
  summary : String
  tagsJson : String
  entitiesJson : String
  claimsJson : String
  applicabilityJson : String
  confidence : ℚ
  evidenceCount : Nat
  confirmationCount : Nat
  createdAt : String
  updatedAt : String
  lastConfirmedAt : String
deriving DecidableEq

/-- A row of the `memory_l1_fts` / `memory_l2_fts` virtual tables. -/
structure FtsRow where
  id : String
  title : String
  summary : String
  tagsText : String
  entitiesText : String
deriving DecidableEq

/-- A row of `memory_l2_nodes`. -/
structure L2Row where
  id : String
  tenantId : String
  workspaceId : String
  repoId : Option String
  module : Option String
  environment : Option String
  ty : String
  status : String
  version : Nat
  supersedesId : Option String
  title : String
  summary : String
  tagsJson : String
  entitiesJson : String
  claimsJson : String
  applicabilityJson : String
  confidence : ℚ
  evidenceCount : Nat
  confirmationCount : Nat
  createdAt : String
  updatedAt : String
  lastConfirmedAt : String
deriving DecidableEq

/-- A row of `memory_l2_edges`; the primary key is
`(tenant_id, workspace_id, from_id, rel, to_id)`. -/
structure EdgeRow where
  tenantId : String
  workspaceId : String
  fromId : String
  rel : String
  toId : String
  weight : ℚ
  createdAt : String
deriving DecidableEq

/-- A stored artifact row of `memory_artifacts` (primary key
`(memory_id, kind, locator)`). -/
structure StoredArtifact where
  memoryId : String
  layer : String
  kind : String
  locator : String
  hash : Option String
  createdAt : String
  classification : String
  snippetPolicy : String
deriving DecidableEq

/-- A row of `tombstones`; the primary key is
`(tenant_id, workspace_id, selector_hash)`. -/
structure TombstoneRow where
  tenantId : String
  workspaceId : String
  selectorHash : String
  createdAt : String
deriving DecidableEq

/-- The result value a mutating operation returns (and the idempotency table
records as `result_json`); each constructor mirrors one result-dict shape of
ingestion.py. -/
inductive OpResult where
  | l0Created (id : String) (l1Id : Option String)
  | episodeRes (id : String) (action : String)
  | promoted (id : String)
  | linked (fromId : String) (toId : String) (rel : String)
  | errEnv (errorCode : String) (message : String)
deriving DecidableEq

/-- The whole SQLite database as one value; inserts append, matching rowid
scan order. -/
structure DB where
  idem : List (String × String × OpResult)
  l0 : List L0Row
  l1 : List L1Row
  l1fts : List FtsRow
  l2 : List L2Row
  l2fts : List FtsRow
  edges : List EdgeRow
  artifacts : List StoredArtifact
  tombstones : List TombstoneRow
deriving DecidableEq

/-- The empty database. -/
def DB.empty : DB :=
  { idem := [], l0 := [], l1 := [], l1fts := [], l2 := [], l2fts := [],
    edges := [], artifacts := [], tombstones := [] }

/-! ### Idempotency gate, from `check_idempotency` / `record_idempotency`
in ingestion.py -/

/-- Lookup of `(tenant_id, key)` in the idempotency table
(`check_idempotency`). -/
def checkIdempotency (db : DB) (tenantId key : String) : Option OpResult :=
  (db.idem.find? (fun e => e.1 == tenantId && e.2.1 == key)).map (fun e => e.2.2)

/-- Insertion of a result under `(tenant_id, key)` (`record_idempotency`). -/
def recordIdempotency (db : DB) (tenantId key : String) (result : OpResult) :
    DB :=
  { db with idem := db.idem ++ [(tenantId, key, result)] }

/-! ### Ingestion operations, from `memlayer/core/ingestion.py` -/

/-- The `upsert_event` operation (ingestion.py lines 29-94).  `l0Uuid` and
`l1Uuid` are the two `uuid.uuid4()` draws, `now` the ISO timestamp and
`expiresAt` the serialized `now + 24h`.  Inserts the L0 row; when
`distill_to_l1` also materializes the L1 Observation (note: the source writes
`confidence = 1.0` into that row) and its FTS projection; records the result
under the idempotency key and commits all of it together. -/
def upsertEvent (scope : Scope) (payload : EventPayload)
    (idempotencyKey : String) (distillToL1 : Bool)
    (l0Uuid l1Uuid now expiresAt : String) (db : DB) : OpResult × DB :=
  match checkIdempotency db scope.tenantId idempotencyKey with
  | some existing => (existing, db)
  | none =>
    let l0row : L0Row :=
      { id := l0Uuid, tenantId := scope.tenantId,
        workspaceId := scope.workspaceId, repoId := scope.repoId,
        sessionId := scope.sessionId, taskId := scope.taskId,
        payloadJson := eventPayloadJson payload, expiresAt := expiresAt }
    let db1 : DB := { db with l0 := db.l0 ++ [l0row] }
    if distillToL1 then
      let contentPreview := payload.content.take 50
      let title := "Observation: " ++ contentPreview
      let summary := payload.content
      let l1row : L1Row :=
        { id := l1Uuid, tenantId := scope.tenantId,
          workspaceId := scope.workspaceId, repoId := scope.repoId,
          module := scope.module, environment := scope.environment,
          userId := scope.userId, sessionId := scope.sessionId,
          taskId := scope.taskId, ty := "Observation", status := "active",
          title := title, summary := summary, tagsJson := "[]",
          entitiesJson := "[]", claimsJson := "[]",
          applicabilityJson := "\x7b\x7d", confidence := 1.0,
          evidenceCount := 0, confirmationCount := 1, createdAt := now,
          updatedAt := now, lastConfirmedAt := now }
      let db2 : DB :=
        { db1 with
          l1 := db1.l1 ++ [l1row],
          l1fts := db1.l1fts ++ [⟨l1Uuid, title, summary, "", ""⟩] }
      let result := OpResult.l0Created l0Uuid (some l1Uuid)
      (result, recordIdempotency db2 scope.tenantId idempotencyKey result)
    else
      let result := OpResult.l0Created l0Uuid none
      (result, recordIdempotency db1 scope.tenantId idempotencyKey result)

/-- The `commit_episode` operation (ingestion.py lines 96-168): find an
existing EpisodeSummary keyed by session (else task), update it in place and
bump `confirmation_count`, or insert a fresh one; maintain FTS in lockstep;
record the result under the idempotency key. -/
def commitEpisode (scope : Scope) (payload : EpisodePayload)
    (idempotencyKey uuid now : String) (db : DB) : OpResult × DB :=
  match checkIdempotency db scope.tenantId idempotencyKey with
  | some existing => (existing, db)
  | none =>
    let targetId : Option String :=
      if optTruthy scope.sessionId then
        (db.l1.find? (fun r =>
          r.tenantId == scope.tenantId && r.workspaceId == scope.workspaceId
            && r.sessionId == scope.sessionId
            && r.ty == "EpisodeSummary")).map (fun r => r.id)
      else if optTruthy scope.taskId then
        (db.l1.find? (fun r =>
          r.tenantId == scope.tenantId && r.workspaceId == scope.workspaceId
            && r.taskId == scope.taskId
            && r.ty == "EpisodeSummary")).map (fun r => r.id)
      else none
    match targetId with
    | some tid =>
      let l1' := db.l1.map (fun r =>
        if r.id == tid then
          { r with
            title := payload.title, summary := payload.summary,
            tagsJson := jsonStrList payload.tags,
            entitiesJson := jsonStrList payload.entities,
            claimsJson := jsonStrList payload.claims,
            applicabilityJson := jsonObjDump payload.applicability,
            updatedAt := now,
            confirmationCount := r.confirmationCount + 1,
            lastConfirmedAt := now }
        else r)
      let fts' := db.l1fts.map (fun f =>
        if f.id == tid then
          { f with
            title := payload.title, summary := payload.summary,
            tagsText := String.intercalate " " payload.tags,
            entitiesText := String.intercalate " " payload.entities }
        else f)
      let result := OpResult.episodeRes tid "updated"
      (result,
        recordIdempotency { db with l1 := l1', l1fts := fts' }
          scope.tenantId idempotencyKey result)
    | none =>
      let row : L1Row :=
        { id := uuid, tenantId := scope.tenantId,
          workspaceId := scope.workspaceId, repoId := scope.repoId,
          module := scope.module, environment := scope.environment,
          userId := scope.userId, sessionId := scope.sessionId,
          taskId := scope.taskId, ty := "EpisodeSummary", status := "active",
          title := payload.title, summary := payload.summary,
          tagsJson := jsonStrList payload.tags,
          entitiesJson := jsonStrList payload.entities,
          claimsJson := jsonStrList payload.claims,
          applicabilityJson := jsonObjDump payload.applicability,
          confidence := 1.0, evidenceCount := 0, confirmationCount := 1,
          createdAt := now, updatedAt := now, lastConfirmedAt := now }
      let result := OpResult.episodeRes uuid "created"
      (result,
        recordIdempotency
          { db with
            l1 := db.l1 ++ [row],
            l1fts := db.l1fts ++
              [⟨uuid, payload.title, payload.summary,
                String.intercalate " " payload.tags,
                String.intercalate " " payload.entities⟩] }
          scope.tenantId idempotencyKey result)

/-- The set of admissible L2 node types checked by the promotion validator. -/
def l2Types : List String :=
  ["Decision", "Contract", "VerifiedFact", "StableConstraint"]

/-- The `promote_to_l2` operation (ingestion.py lines 170-240).  Validation
happens before the idempotency gate: a draft type outside the L2 type set or
an empty claims list is rejected with `PROMOTION_VALIDATION_FAILED` (the
scope-tightness check of the source is a no-op `pass`).  On acceptance inserts
the node (version 1, confidence 1.0, counts (1,1)), its FTS row and the
artifact re-keyed under the freshly minted node id, then records the result. -/
def promoteToL2 (scope : Scope) (draft : L2Draft) (artifact : ArtifactRef)
    (idempotencyKey uuid now : String) (db : DB) : OpResult × DB :=
  if draft.ty ∉ l2Types then
    (OpResult.errEnv "PROMOTION_VALIDATION_FAILED" "Invalid type", db)
  else if draft.claims = [] then
    (OpResult.errEnv "PROMOTION_VALIDATION_FAILED" "No claims provided", db)
  else
    match checkIdempotency db scope.tenantId idempotencyKey with
    | some existing => (existing, db)
    | none =>
      let node : L2Row :=
        { id := uuid, tenantId := scope.tenantId,
          workspaceId := scope.workspaceId, repoId := scope.repoId,
          module := scope.module, environment := scope.environment,
          ty := draft.ty, status := "active", version := 1,
          supersedesId := none, title := draft.title,
          summary := draft.summary, tagsJson := jsonStrList draft.tags,
          entitiesJson := jsonStrList draft.entities,
          claimsJson := jsonStrList draft.claims,
          applicabilityJson := jsonObjDump draft.applicability,
          confidence := 1.0, evidenceCount := 1, confirmationCount := 1,
          createdAt := now, updatedAt := now, lastConfirmedAt := now }
      let art : StoredArtifact :=
        { memoryId := uuid, layer := "L2", kind := artifact.kind,
          locator := artifact.locator, hash := artifact.hash,
          createdAt := now, classification := artifact.classification,
          snippetPolicy := artifact.snippetPolicy }
      let result := OpResult.promoted uuid
      (result,
        recordIdempotency
          { db with
            l2 := db.l2 ++ [node],
            l2fts := db.l2fts ++
              [⟨uuid, draft.title, draft.summary,
                String.intercalate " " draft.tags,
                String.intercalate " " draft.entities⟩],
            artifacts := db.artifacts ++ [art] }
          scope.tenantId idempotencyKey result)

/-- Equality of the edge primary key
`(tenant_id, workspace_id, from_id, rel, to_id)`. -/
def edgeSamePK (e1 e2 : EdgeRow) : Bool :=
  e1.tenantId == e2.tenantId && e1.workspaceId == e2.workspaceId
    && e1.fromId == e2.fromId && e1.rel == e2.rel && e1.toId == e2.toId

/-- The `link_memories` operation (ingestion.py lines 241-277): idempotency
gate when a key is given, `NOT_FOUND` when either endpoint is missing from
`memory_l2_nodes` (checked by id only), then an `INSERT OR REPLACE` on the
edge primary key. -/
def linkMemories (scope : Scope) (fromId toId rel : String) (weight : ℚ)
    (idempotencyKey : Option String) (now : String) (db : DB) :
    OpResult × DB :=
  let hit : Option OpResult :=
    idempotencyKey.bind (fun k => checkIdempotency db scope.tenantId k)
  match hit with
  | some existing => (existing, db)
  | none =>
    if (db.l2.find? (fun n => n.id == fromId)).isNone then
      (OpResult.errEnv "NOT_FOUND"
        ("Source node " ++ fromId ++ " not found in L2"), db)
    else if (db.l2.find? (fun n => n.id == toId)).isNone then
      (OpResult.errEnv "NOT_FOUND"
        ("Target node " ++ toId ++ " not found in L2"), db)
    else
      let newEdge : EdgeRow :=
        { tenantId := scope.tenantId, workspaceId := scope.workspaceId,
          fromId := fromId, rel := rel, toId := toId, weight := weight,
          createdAt := now }
      let db1 : DB :=
        { db with
          edges := db.edges.filter (fun e => !edgeSamePK e newEdge)
                     ++ [newEdge] }
      let result := OpResult.linked fromId toId rel
      match idempotencyKey with
      | some k => (result, recordIdempotency db1 scope.tenantId k result)
      | none => (result, db1)

/-! ### The key-taking mutating operations as one step relation (for the
idempotency claims) -/

/-- One key-taking mutating operation together with all of its inputs,
including the environment draws (UUIDs, timestamps). -/
inductive Op where
  | upsert (scope : Scope) (payload : EventPayload) (key : String)
      (distill : Bool) (l0Uuid l1Uuid now expiresAt : String)
  | episode (scope : Scope) (payload : EpisodePayload)
      (key : String) (uuid now : String)
  | promote (scope : Scope) (draft : L2Draft) (artifact : ArtifactRef)
      (key : String) (uuid now : String)
  | link (scope : Scope) (fromId toId rel : String) (weight : ℚ)
      (key : String) (now : String)

/-- Dispatch of one operation against the database. -/
def runOp : Op → DB → OpResult × DB
  | .upsert scope payload key distill l0Uuid l1Uuid now expiresAt, db =>
      upsertEvent scope payload key distill l0Uuid l1Uuid now expiresAt db
  | .episode scope payload key uuid now, db =>
      commitEpisode scope payload key uuid now db
  | .promote scope draft artifact key uuid now, db =>
      promoteToL2 scope draft artifact key uuid now db
  | .link scope fromId toId rel weight key now, db =>
      linkMemories scope fromId toId rel weight (some key) now db

/-- The tenant of an operation's scope. -/
def opTenant : Op → String
  | .upsert scope _ _ _ _ _ _ _ => scope.tenantId
  | .episode scope _ _ _ _ => scope.tenantId
  | .promote scope _ _ _ _ _ => scope.tenantId
  | .link scope _ _ _ _ _ _ => scope.tenantId

/-- The idempotency key of an operation. -/
def opKey : Op → String
  | .upsert _ _ key _ _ _ _ _ => key
  | .episode _ _ key _ _ => key
  | .promote _ _ _ key _ _ => key
  | .link _ _ _ _ _ key _ => key

/-- The operation, run against this database, takes a success path (its
validation passes / its referenced rows exist), so its first call records a
result.  `upsert_event` and `commit_episode` always succeed; `promote_to_l2`
succeeds when the draft validates; `link_memories` succeeds when both
endpoints exist in L2. -/
def opSucceeds : Op → DB → Prop
  | .upsert _ _ _ _ _ _ _ _, _ => True
  | .episode _ _ _ _ _, _ => True
  | .promote _ draft _ _ _ _, _ => draft.ty ∈ l2Types ∧ draft.claims ≠ []
  | .link _ fromId toId _ _ _ _, db =>
      (db.l2.find? (fun n => n.id == fromId)).isSome
        ∧ (db.l2.find? (fun n => n.id == toId)).isSome

/-- `replayRun op s n` is the outcome of the `(n+1)`-th consecutive delivery
of the same operation starting from state `s`. -/
def replayRun (op : Op) (s : DB) : Nat → OpResult × DB
  | 0 => runOp op s
  | n + 1 => runOp op (replayRun op s n).2

/-- The statically re-checkable part of `opSucceeds`: what a replayed
delivery re-validates before it reaches the idempotency gate
(`promote_to_l2` validates the draft before consulting the gate; the other
operations consult it first). -/
def opValidStatic : Op → Prop
  | .promote _ draft _ _ _ _ => draft.ty ∈ l2Types ∧ draft.claims ≠ []
  | _ => True

/-! ### Governance, from `memlayer/core/governance.py` -/

/-- Lookup of a key in an insertion-ordered dictionary (the first binding
wins; a Python dict has unique keys). -/
def slookup (k : String) : List (String × JVal) → Option JVal
  | [] => none
  | e :: rest => if e.1 = k then some e.2 else slookup k rest

/-- The canonical (key-sorted) JSON encoding of a selector dictionary, as
`json.dumps(selector, sort_keys=True)` renders it. -/
def canonicalSelectorJson (selector : List (String × JVal)) : String :=
  let keys := List.insertionSort (· ≤ ·) (selector.map Prod.fst)
  "\x7b" ++
    String.intercalate ", "
      (keys.map (fun k =>
        jsonStr k ++ ": " ++
          (match slookup k selector with
           | some v => jvalDump v
           | none => "null"))) ++
  "\x7d"

/-- `compute_selector_hash` (governance.py lines 10-13): SHA-256 of the
key-sorted JSON encoding.  `sha256` abstracts `hashlib.sha256(...).hexdigest()`;
the theorems hold for every such digest function. -/
def computeSelectorHash (sha256 : String → String)
    (selector : List (String × JVal)) : String :=
  sha256 (canonicalSelectorJson selector)

/-- Python truthiness of `selector.get(k)` for a flat JSON value. -/
def jvalTruthy : Option JVal → Bool
  | none => false
  | some .null => false
  | some (.s v) => v ≠ ""
  | some (.i v) => v ≠ 0

/-- SQLite equality of a nullable TEXT column against a bound value (a bound
non-text value never equals a TEXT column; NULL equals nothing). -/
def colEqVal (col : Option String) (v : JVal) : Bool :=
  match v with
  | .s s => col == some s
  | _ => false

/-- SQLite `column >= value` for a TEXT column (numeric values sort before
all text; NULL comparisons are not satisfied). -/
def colGeVal (col : String) (v : JVal) : Bool :=
  match v with
  | .s s => decide (s ≤ col)
  | .i _ => true
  | .null => false

/-- SQLite `column <= value` for a TEXT column. -/
def colLeVal (col : String) (v : JVal) : Bool :=
  match v with
  | .s s => decide (col ≤ s)
  | .i _ => false
  | .null => false

/-- The selector `WHERE` clause of `forget_memory` applied to an L1 row:
scope prefix plus optional `user_id` equality and `created_at` bounds. -/
def l1MatchesSelector (scope : Scope) (selector : List (String × JVal))
    (r : L1Row) : Bool :=
  r.tenantId == scope.tenantId && r.workspaceId == scope.workspaceId
    && (if jvalTruthy (slookup "user_id" selector) then
          colEqVal r.userId ((slookup "user_id" selector).getD .null)
        else true)
    && (if jvalTruthy (slookup "start_time" selector) then
          colGeVal r.createdAt ((slookup "start_time" selector).getD .null)
        else true)
    && (if jvalTruthy (slookup "end_time" selector) then
          colLeVal r.createdAt ((slookup "end_time" selector).getD .null)
        else true)

/-- The same `WHERE` clause applied to an L2 row (only reached when the
selector has no `user_id`). -/
def l2MatchesSelector (scope : Scope) (selector : List (String × JVal))
    (r : L2Row) : Bool :=
  r.tenantId == scope.tenantId && r.workspaceId == scope.workspaceId
    && (if jvalTruthy (slookup "start_time" selector) then
          colGeVal r.createdAt ((slookup "start_time" selector).getD .null)
        else true)
    && (if jvalTruthy (slookup "end_time" selector) then
          colLeVal r.createdAt ((slookup "end_time" selector).getD .null)
        else true)

/-- The result dictionary of `forget_memory` (its `status` is always "ok"). -/
structure ForgetResult where
  tombstoneHash : String
  deletedL0 : Nat
  deletedL1 : Nat
  tombstonedL2 : Nat
deriving DecidableEq

/-- The `forget_memory` operation (governance.py lines 15-131): insert the
tombstone (a primary-key collision raises `IntegrityError`, absorbed by
keeping the existing row), hard-delete L0 when the selector only uses fields
the L0 schema can filter, hard-delete matching L1 rows plus their FTS
projections, and soft-delete matching L2 rows unless the selector narrows by
`user_id`. -/
def forgetMemory (sha256 : String → String) (scope : Scope)
    (selector : List (String × JVal)) (now : String) (db : DB) :
    ForgetResult × DB :=
  let selectorHash := computeSelectorHash sha256 selector
  let tombstones' :=
    if db.tombstones.any (fun tb =>
        tb.tenantId == scope.tenantId && tb.workspaceId == scope.workspaceId
          && tb.selectorHash == selectorHash) then
      db.tombstones
    else
      db.tombstones ++
        [⟨scope.tenantId, scope.workspaceId, selectorHash, now⟩]
  let userSel := jvalTruthy (slookup "user_id" selector)
  let startSel := jvalTruthy (slookup "start_time" selector)
  let endSel := jvalTruthy (slookup "end_time" selector)
  let canFilterL0 := !userSel && !startSel && !endSel
  let l0Match := fun (r : L0Row) =>
    r.tenantId == scope.tenantId && r.workspaceId == scope.workspaceId
  let countL0 := if canFilterL0 then (db.l0.filter l0Match).length else 0
  let l0' := if canFilterL0 then db.l0.filter (fun r => !l0Match r) else db.l0
  let l1Ids := (db.l1.filter (l1MatchesSelector scope selector)).map
    (fun r => r.id)
  let l1' := db.l1.filter (fun r => !l1Ids.contains r.id)
  let l1fts' := db.l1fts.filter (fun f => !l1Ids.contains f.id)
  let l2Ids :=
    if userSel then []
    else (db.l2.filter (l2MatchesSelector scope selector)).map
      (fun r => r.id)
  let l2' :=
    if userSel then db.l2
    else db.l2.map (fun r =>
      if l2Ids.contains r.id then { r with status := "tombstoned" } else r)
  (⟨selectorHash, countL0, l1Ids.length, l2Ids.length⟩,
   { db with
     tombstones := tombstones', l0 := l0', l1 := l1', l1fts := l1fts',
     l2 := l2' })

/-- The result of `gc_compact`. -/
inductive GcResult where
  | ok (compactedObservations episodesCreated : Nat)
  | err (message : String)
deriving DecidableEq

/-- The `GROUP BY` key of `gc_compact`:
`(SUBSTR(created_at,1,10), repo_id, module)`. -/
structure GroupKey where
  day : String
  repoId : Option String
  module : Option String
deriving DecidableEq

/-- The group key of one active Observation row. -/
def obsGroupKey (r : L1Row) : GroupKey :=
  ⟨r.createdAt.take 10, r.repoId, r.module⟩

/-- The distinct group keys, in order of first occurrence. -/
def groupKeysOf (rows : List L1Row) : List GroupKey :=
  rows.foldl
    (fun acc r => if obsGroupKey r ∈ acc then acc else acc ++ [obsGroupKey r])
    []

/-- The rows the compaction query selects: active Observations of the
scope. -/
def obsRows (scope : Scope) (db : DB) : List L1Row :=
  db.l1.filter (fun r =>
    r.tenantId == scope.tenantId && r.workspaceId == scope.workspaceId
      && r.ty == "Observation" && r.status == "active")

/-- The grouped rows of the `GROUP BY` query: each distinct key with its
member rows in table scan order. -/
def gcGroups (rows : List L1Row) : List (GroupKey × List L1Row) :=
  (groupKeysOf rows).map
    (fun k => (k, rows.filter (fun r => decide (obsGroupKey r = k))))

/-- Title of the episode minted for one compaction group:
`"Episode: <day> - <module or 'General'>"`. -/
def episodeTitle (g : GroupKey × List L1Row) : String :=
  "Episode: " ++ g.1.day ++ " - " ++
    (match g.1.module with
     | some m => if m = "" then "General" else m
     | none => "General")

/-- Summary of the episode minted for one compaction group:
`"Compacted N observations. Content: <first 200 chars of concatenated
summaries>..."` where the summaries are `GROUP_CONCAT`-joined with " || ". -/
def episodeSummaryText (g : GroupKey × List L1Row) : String :=
  "Compacted " ++ toString g.2.length ++ " observations. Content: " ++
    (String.intercalate " || " (g.2.map (fun r => r.summary))).take 200 ++
    "..."

/-- The EpisodeSummary row minted for one compaction group. -/
def mkEpisodeRow (scope : Scope) (g : GroupKey × List L1Row)
    (uuid now : String) : L1Row :=
  { id := uuid, tenantId := scope.tenantId, workspaceId := scope.workspaceId,
    repoId := g.1.repoId, module := g.1.module,
    environment := scope.environment, userId := scope.userId,
    sessionId := none, taskId := none, ty := "EpisodeSummary",
    status := "active", title := episodeTitle g,
    summary := episodeSummaryText g, tagsJson := "[]", entitiesJson := "[]",
    claimsJson := "[]", applicabilityJson := "\x7b\x7d", confidence := 0.8,
    evidenceCount := g.2.length, confirmationCount := 1, createdAt := now,
    updatedAt := now, lastConfirmedAt := now }

/-- The archive update of the compaction loop: a row whose id is in the
given id list has its status set to "archived" (`UPDATE memory_l1 SET
status='archived' WHERE id IN (...)`). -/
def archiveIfIn (ids : List String) (r : L1Row) : L1Row :=
  if ids.contains r.id then { r with status := "archived" } else r

/-- The running state of the compaction loop. -/
structure GcState where
  db : DB
  idx : Nat
  compacted : Nat
  episodes : Nat

/-- One iteration of the compaction loop of `gc_compact` (governance.py lines
207-249): skip groups of size < 2, otherwise insert the episode row and its
FTS projection and archive the member ids. -/
def gcStep (scope : Scope) (uuidAt nowAt : Nat → String) (st : GcState)
    (g : GroupKey × List L1Row) : GcState :=
  if g.2.length < 2 then st
  else
    let uuid := uuidAt st.idx
    let now := nowAt st.idx
    let ep := mkEpisodeRow scope g uuid now
    let ids := g.2.map (fun r => r.id)
    let l1' := (st.db.l1 ++ [ep]).map (archiveIfIn ids)
    let fts' := st.db.l1fts ++ [⟨uuid, episodeTitle g, episodeSummaryText g, "", ""⟩]
    { db := { st.db with l1 := l1', l1fts := fts' },
      idx := st.idx + 1, compacted := st.compacted + g.2.length,
      episodes := st.episodes + 1 }

/-- The compaction groups of size at least 2 (the ones the loop acts on). -/
def bigGroups (scope : Scope) (db : DB) : List (GroupKey × List L1Row) :=
  (gcGroups (obsRows scope db)).filter (fun g => decide (2 ≤ g.2.length))

/-- The episode rows a compaction run mints for the given groups, with
consecutive environment draws starting at index `i`. -/
def mkEpisodes (scope : Scope) (uuidAt nowAt : Nat → String) :
    Nat → List (GroupKey × List L1Row) → List L1Row
  | _, [] => []
  | i, g :: gs =>
      mkEpisodeRow scope g (uuidAt i) (nowAt i)
        :: mkEpisodes scope uuidAt nowAt (i + 1) gs

/-- The FTS rows a compaction run mints for the given groups. -/
def mkEpisodeFts (uuidAt nowAt : Nat → String) :
    Nat → List (GroupKey × List L1Row) → List FtsRow
  | _, [] => []
  | i, g :: gs =>
      ⟨uuidAt i, episodeTitle g, episodeSummaryText g, "", ""⟩
        :: mkEpisodeFts uuidAt nowAt (i + 1) gs

/-- The `gc_compact` operation (governance.py lines 171-257): group the
active Observations of the scope by `(day, repo_id, module)` and fold the
compaction step over the groups.  `uuidAt`/`nowAt` supply the per-iteration
`uuid.uuid4()` and `datetime.now()` draws. -/
def gcCompact (scopeOpt : Option Scope) (uuidAt nowAt : Nat → String)
    (db : DB) : GcResult × DB :=
  match scopeOpt with
  | none => (.err "Scope required for compaction", db)
  | some scope =>
    let rows := obsRows scope db
    let groups := gcGroups rows
    let final := groups.foldl (gcStep scope uuidAt nowAt) ⟨db, 0, 0, 0⟩
    (.ok final.compacted final.episodes, final.db)

/-! ### The filters dictionary handling of `search_memory` (retrieval.py
lines 32-39), with Python's reference semantics made explicit -/

/-- A value of the `filters` dictionary passed to `search_memory`. -/
inductive FilterVal where
  | s (v : String)
  | emb (v : List ℚ)
deriving DecidableEq

/-- Key membership in a filters dictionary. -/
def dictContains (d : List (String × FilterVal)) (k : String) : Bool :=
  d.any (fun e => e.1 == k)

/-- Value lookup in a filters dictionary. -/
def dictGet (d : List (String × FilterVal)) (k : String) : Option FilterVal :=
  (d.find? (fun e => e.1 == k)).map (fun e => e.2)

/-- Key deletion (`del d[k]`) on a filters dictionary. -/
def dictErase (d : List (String × FilterVal)) (k : String) :
    List (String × FilterVal) :=
  d.filter (fun e => e.1 != k)

/-- The embedding-extraction prelude of `search_memory`, with a heap of
dictionaries making Python's aliasing explicit: the caller's dictionary lives
at `filtersRef`; the code copies it (`filters.copy()`, a fresh heap cell) and
deletes `query_embedding` from the copy only.  Returns the extracted
embedding value, the reference the rest of the function uses, and the heap
after the call. -/
def searchFiltersPrelude (heap : List (List (String × FilterVal)))
    (filtersRef : Option Nat) :
    Option FilterVal × Option Nat × List (List (String × FilterVal)) :=
  match filtersRef with
  | none => (none, none, heap)
  | some r =>
    let d := (heap.get? r).getD []
    if !d.isEmpty && dictContains d "query_embedding" then
      (dictGet d "query_embedding", some heap.length,
        heap ++ [dictErase d "query_embedding"])
    else
      (none, some r, heap)

/-- Total token cost of a list of items, each costing
`len(serialized) // 4`. -/
def sumCosts (serialize : α → String) (items : List α) : Nat :=
  (items.map (fun i => (serialize i).length / 4)).sum

/-! ## Theorems -/

/-- Invariant of the packaging loop: starting from `used ≤ budget` tokens and
accumulator `acc`, the loop returns a prefix of the remaining rows appended to
the accumulator, keeps the running totals consistent, stays within budget, and
truncates exactly when it stops before consuming all rows, at the first
overflowing item. -/
lemma packageLoop_char (serialize : α → String) (budget : Nat) :
    ∀ (rows : List α) (used : Nat) (acc : List α), used ≤ budget →
      ∃ k,
        (packageLoop serialize budget rows used acc).items
            = acc.reverse ++ rows.take k
        ∧ (packageLoop serialize budget rows used acc).tokenEstimateUsed
            = used + sumCosts serialize (rows.take k)
        ∧ used + sumCosts serialize (rows.take k) ≤ budget
        ∧ (packageLoop serialize budget rows used acc).truncation.remainingBudget
            = budget - (used + sumCosts serialize (rows.take k))
        ∧ ((packageLoop serialize budget rows used acc).truncation.truncated = true
            ↔ k < rows.length)
        ∧ ((packageLoop serialize budget rows used acc).truncation.truncated = true →
            (packageLoop serialize budget rows used acc).truncation.reason
                = some "TOKEN_BUDGET"
              ∧ budget < used + sumCosts serialize (rows.take (k + 1)))
        ∧ ((packageLoop serialize budget rows used acc).truncation.truncated = false →
            (packageLoop serialize budget rows used acc).truncation.reason = none) := by
  intro rows
  induction rows with
  | nil =>
    intro used acc hu
    refine ⟨0, ?_⟩
    simp [packageLoop, sumCosts, hu]
  | cons row rest ih =>
    intro used acc hu
    by_cases hover : used + (serialize row).length / 4 > budget
    · refine ⟨0, ?_⟩
      simp only [packageLoop, if_pos hover]
      refine ⟨by simp, by simp [sumCosts], by simpa using hu, by simp [sumCosts], ?_, ?_, ?_⟩
      · simp
      · intro _
        exact ⟨by simp, by simpa [sumCosts] using hover⟩
      · intro hfalse
        simp at hfalse
    · have hfit : used + (serialize row).length / 4 ≤ budget := by omega
      obtain ⟨k, hitems, htok, hle, hrem, htrunc, htr, hfr⟩ :=
        ih (used + (serialize row).length / 4) (row :: acc) hfit
      refine ⟨k + 1, ?_, ?_, ?_, ?_, ?_, ?_, ?_⟩
      · simp only [packageLoop, if_neg hover]
        rw [hitems]
        simp [List.take_succ_cons]
      · simp only [packageLoop, if_neg hover]
        rw [htok]
        simp [sumCosts, List.take_succ_cons]
        omega
      · simp only [sumCosts, List.take_succ_cons, List.map_cons, List.sum_cons]
        have := hle
        simp only [sumCosts] at this
        omega
      · simp only [packageLoop, if_neg hover]
        rw [hrem]
        have : used + (serialize row).length / 4
            + sumCosts serialize (rest.take k)
            = used + sumCosts serialize ((row :: rest).take (k + 1)) := by
          simp [sumCosts, List.take_succ_cons]
          omega
        rw [this]
      · simp only [packageLoop, if_neg hover]
        rw [htrunc]
        simp
      · simp only [packageLoop, if_neg hover]
        intro htt
        obtain ⟨hr1, hr2⟩ := htr htt
        refine ⟨hr1, ?_⟩
        have : used + (serialize row).length / 4
            + sumCosts serialize (rest.take (k + 1))
            = used + sumCosts serialize ((row :: rest).take (k + 1 + 1)) := by
          simp [sumCosts, List.take_succ_cons]
          omega
        omega
      · simp only [packageLoop, if_neg hover]
        exact hfr

/-- C2 counterexample: the claimed fused score disagrees with the code on a
row whose `last_confirmed_at` is 180 days old, because the code fixes
`freshness = 1.0` instead of computing `exp(-days/180)`.  Concrete input: an
Observation row with confidence 1, rank 0, no vector distance, no query
embedding. -/
theorem fused_score_freshness_counterexample :
    ((scoreRow false ⟨"a", "Observation", 1, 0, none⟩ : ℚ) : ℝ)
      ≠ specFusedScore false ⟨"a", "Observation", 1, 0, none⟩ (some 180) := by
  have ht : typeBoost "Observation" = 1 / 2 := by
    simp [typeBoost]
    norm_num
  have hcode : (scoreRow false ⟨"a", "Observation", 1, 0, none⟩ : ℚ) = 3 / 5 := by
    simp [scoreRow, ht, W_CONFIDENCE, W_FRESHNESS, W_TYPE, W_VECTOR]
    norm_num
  rw [hcode]
  simp only [specFusedScore]
  norm_num
  rw [ht]
  intro h
  have hlt : Real.exp (-1 : ℝ) < 1 := Real.exp_lt_one_iff.mpr (by norm_num)
  norm_num at h
  linarith

/-- C2 (amended): for every candidate row of the lexical/vector query, the
fused score equals
`0.40·confidence + 0.15·freshness + 0.10·type_boost + w_vec·(1/(1+vector_dist))
+ 0.50·(−fts_rank)` with `freshness = 1.0` always (the code never computes the
exponential decay), `w_vec = 0.35` iff a query embedding was supplied, and the
claimed type boosts. -/
theorem fused_score_amended (hasQueryEmbedding : Bool) (rows : List Candidate) :
    scoreCandidates hasQueryEmbedding rows
      = rows.map (fun r => (amendedFusedScore hasQueryEmbedding r, r)) := by
  unfold scoreCandidates
  have hpt : ∀ r : Candidate,
      scoreRow hasQueryEmbedding r = amendedFusedScore hasQueryEmbedding r := by
    intro r
    rcases r with ⟨i, t, c, rk, vd⟩
    cases hasQueryEmbedding <;> cases vd <;>
      simp [scoreRow, amendedFusedScore, W_CONFIDENCE, W_FRESHNESS, W_TYPE,
        W_VECTOR] <;> ring
  simp [hpt]

set_option maxRecDepth 8192 in
/-- C3 (code bug): `upsert_event` with `distill` materializes the L1
Observation with title "Observation: " + first 50 chars, summary = content,
empty lists, applicability `\x7b\x7d`, counts (0,1) and all timestamps = now —
but writes `confidence = 1.0`, where the specification (and the project's own
test `test_m3.test_confidence_calculation`) require 0.5.  Evaluated at the
test's own input. -/
theorem upsert_distill_confidence_bug :
    (upsertEvent
        ⟨"t1", "w1", some "r1", some "core", some "dev", some "u1", none, none⟩
        ⟨"test content", none⟩ "id-1" true "L0U" "L1U" "NOW" "EXP"
        DB.empty).2.l1
      = [⟨"L1U", "t1", "w1", some "r1", some "core", some "dev", some "u1",
          none, none, "Observation", "active", "Observation: test content",
          "test content", "[]", "[]", "[]", "\x7b\x7d", 1.0, 0, 1, "NOW", "NOW",
          "NOW"⟩]
      ∧ (1.0 : ℚ) ≠ (0.5 : ℚ) := by
  constructor
  · rfl
  · norm_num

set_option maxRecDepth 8192 in
/-- C9 counterexample: for an allowed file artifact whose locator cannot be
read, the code stores the snippet `"[Content placeholder]"`, whereas the
claim says the snippet field is omitted. -/
theorem evidence_snippet_counterexample :
    mkArtifactEntry (fun _ => none) ⟨"m", "L2", "file", "/missing", "allowed"⟩
      ≠ specArtifactEntry (fun _ => none)
          ⟨"m", "L2", "file", "/missing", "allowed"⟩ := by
  decide

/-- C9 (amended): for every artifact with `snippet_policy = "allowed"` and
`kind = "file"`, the packager includes as snippet the first 1024 characters
of the decoded content when the read succeeds; when the read fails or the
file is absent the snippet is the placeholder string "[Content placeholder]",
not omitted. -/
theorem evidence_snippet_amended (fs : String → Option String)
    (art : ArtifactRow) (hp : art.snippetPolicy = "allowed")
    (hk : art.kind = "file") :
    (mkArtifactEntry fs art).snippet
      = some (match fs art.locator with
              | some content => content.take 1024
              | none => "[Content placeholder]") := by
  simp [mkArtifactEntry, hp, hk]

/-- C9 witness: the amended snippet behavior at a concrete readable file and
at a concrete missing file. -/
theorem evidence_snippet_amended_witness :
    (mkArtifactEntry (fun _ => some "hello") ⟨"m", "L2", "file", "f", "allowed"⟩).snippet
        = some ("hello".take 1024)
      ∧ (mkArtifactEntry (fun _ => none) ⟨"m", "L2", "file", "g", "allowed"⟩).snippet
        = some "[Content placeholder]" :=
  ⟨evidence_snippet_amended (fun _ => some "hello")
      ⟨"m", "L2", "file", "f", "allowed"⟩ rfl rfl,
    evidence_snippet_amended (fun _ => none)
      ⟨"m", "L2", "file", "g", "allowed"⟩ rfl rfl⟩

/-- C10: `search_memory` never mutates the caller's filters dictionary: the
embedding is removed from a fresh copy, so after the prelude the caller's
heap cell is unchanged, `query_embedding` entry included. -/
theorem search_filters_frame (heap : List (List (String × FilterVal)))
    (r : Nat) (h : r < heap.length) :
    ((searchFiltersPrelude heap (some r)).2.2).get? r = heap.get? r := by
  simp only [searchFiltersPrelude]
  split
  · exact List.get?_append h
  · rfl

/-- C10 witness: the frame property at a one-dictionary heap holding a
`query_embedding` entry. -/
theorem search_filters_frame_witness :
    ((searchFiltersPrelude
        [[("query_embedding", FilterVal.emb [1, 2]), ("type", FilterVal.s "VerifiedFact")]]
        (some 0)).2.2).get? 0
      = (some [("query_embedding", FilterVal.emb [1, 2]), ("type", FilterVal.s "VerifiedFact")] :
          Option (List (String × FilterVal))) := by
  have := search_filters_frame
    [[("query_embedding", FilterVal.emb [1, 2]), ("type", FilterVal.s "VerifiedFact")]]
    0 (by decide)
  simpa using this

/-- C5: result packaging appends items in ranked order (the output is a
prefix of the input), each item costing `len(serialized)/4` tokens; the
included costs never exceed the budget; `remaining_budget = budget - used`;
the truncated flag is set iff an item was dropped, in which case the reason
is "TOKEN_BUDGET" and the first excluded item is the first overflowing one;
if the first item alone exceeds the budget the items list is empty with
truncation signaled.  `serialize` ranges over every view's serialization. -/
theorem package_results_budget (serialize : α → String) (rows : List α)
    (budget : Nat) :
    (packageResults serialize rows budget).items
        = rows.take (packageResults serialize rows budget).items.length
    ∧ (packageResults serialize rows budget).tokenEstimateUsed
        = sumCosts serialize (packageResults serialize rows budget).items
    ∧ sumCosts serialize (packageResults serialize rows budget).items ≤ budget
    ∧ (packageResults serialize rows budget).truncation.remainingBudget
        = budget - (packageResults serialize rows budget).tokenEstimateUsed
    ∧ ((packageResults serialize rows budget).truncation.truncated = true
        ↔ (packageResults serialize rows budget).items.length < rows.length)
    ∧ ((packageResults serialize rows budget).truncation.truncated = true →
        (packageResults serialize rows budget).truncation.reason
            = some "TOKEN_BUDGET"
          ∧ budget < sumCosts serialize
              (rows.take ((packageResults serialize rows budget).items.length + 1)))
    ∧ ((packageResults serialize rows budget).truncation.truncated = false →
        (packageResults serialize rows budget).truncation.reason = none)
    ∧ (∀ r rest, rows = r :: rest → budget < (serialize r).length / 4 →
        (packageResults serialize rows budget).items = []
          ∧ (packageResults serialize rows budget).truncation.truncated = true) := by
  obtain ⟨k, h1, h2, h3, h4, h5, h6, h7⟩ :=
    packageLoop_char serialize budget rows 0 [] (Nat.zero_le _)
  have hitems : (packageResults serialize rows budget).items = rows.take k := by
    simpa [packageResults] using h1
  have hlen : (packageResults serialize rows budget).items.length
      = min k rows.length := by
    rw [hitems, List.length_take]
  have htakelen : rows.take (min k rows.length) = rows.take k := by
    rw [List.take_eq_take]
    omega
  have hout2 : (packageResults serialize rows budget).tokenEstimateUsed
      = sumCosts serialize (rows.take k) := by
    simpa [packageResults] using h2
  have hout3 : sumCosts serialize (rows.take k) ≤ budget := by
    simpa using h3
  have hout4 : (packageResults serialize rows budget).truncation.remainingBudget
      = budget - sumCosts serialize (rows.take k) := by
    simpa [packageResults] using h4
  have hout5 : ((packageResults serialize rows budget).truncation.truncated = true
      ↔ k < rows.length) := by
    simpa [packageResults] using h5
  refine ⟨?_, ?_, ?_, ?_, ?_, ?_, ?_, ?_⟩
  · rw [hitems, List.length_take]
    exact htakelen.symm
  · rw [hout2, hitems]
  · rw [hitems]
    exact hout3
  · rw [hout4, hout2]
  · rw [hout5, hlen]
    omega
  · intro ht
    have hk : k < rows.length := hout5.mp ht
    have hklen : (packageResults serialize rows budget).items.length = k := by
      rw [hlen]
      omega
    have h6' := h6 (by simpa [packageResults] using ht)
    refine ⟨by simpa [packageResults] using h6'.1, ?_⟩
    rw [hklen]
    simpa using h6'.2
  · intro hf
    simpa [packageResults] using h7 (by simpa [packageResults] using hf)
  · intro r rest hrows hbig
    subst hrows
    cases k with
    | zero =>
      refine ⟨by simpa using hitems, ?_⟩
      rw [hout5]
      simp
    | succ l =>
      exfalso
      have hsplit : sumCosts serialize ((r :: rest).take (l + 1))
          = (serialize r).length / 4 + sumCosts serialize (rest.take l) := by
        simp [sumCosts, List.take_succ_cons]
      rw [hsplit] at hout3
      omega

/-- C5 witness: the budget accounting of `package_results` at a concrete
two-item row list under budget 2 (the first item costs 2 tokens, the second
is dropped). -/
theorem package_results_budget_witness :
    (packageResults (fun s : String => s) ["aaaaaaaa", "bbbbbbbbbbbb"] 2).tokenEstimateUsed
        = sumCosts (fun s : String => s)
            (packageResults (fun s : String => s) ["aaaaaaaa", "bbbbbbbbbbbb"] 2).items
      ∧ sumCosts (fun s : String => s)
            (packageResults (fun s : String => s) ["aaaaaaaa", "bbbbbbbbbbbb"] 2).items ≤ 2 :=
  ⟨(package_results_budget (fun s : String => s) ["aaaaaaaa", "bbbbbbbbbbbb"] 2).2.1,
   (package_results_budget (fun s : String => s) ["aaaaaaaa", "bbbbbbbbbbbb"] 2).2.2.1⟩

/-- C4: `promote_to_l2` returns a `PROMOTION_VALIDATION_FAILED` error
envelope iff the draft type is outside the L2 type set or the claims list is
empty (with message "No claims provided" for empty claims), touching nothing;
on acceptance it appends exactly one L2 node with version 1, confidence 1.0
and counts (1,1), one L2 FTS row, and one artifact keyed by the freshly
minted node id instead of the incoming placeholder `memory_id`. -/
theorem promote_validation_and_effects (scope : Scope) (draft : L2Draft)
    (artifact : ArtifactRef) (key uuid now : String) (db : DB)
    (hmiss : checkIdempotency db scope.tenantId key = none) :
    ((∃ msg, (promoteToL2 scope draft artifact key uuid now db).1
        = OpResult.errEnv "PROMOTION_VALIDATION_FAILED" msg)
      ↔ (draft.ty ∉ l2Types ∨ draft.claims = []))
    ∧ (draft.ty ∈ l2Types → draft.claims = [] →
        (promoteToL2 scope draft artifact key uuid now db).1
          = OpResult.errEnv "PROMOTION_VALIDATION_FAILED" "No claims provided")
    ∧ ((draft.ty ∉ l2Types ∨ draft.claims = []) →
        (promoteToL2 scope draft artifact key uuid now db).2 = db)
    ∧ (draft.ty ∈ l2Types → draft.claims ≠ [] →
        (promoteToL2 scope draft artifact key uuid now db).1
            = OpResult.promoted uuid
        ∧ (∃ node, (promoteToL2 scope draft artifact key uuid now db).2.l2
              = db.l2 ++ [node]
            ∧ node.id = uuid ∧ node.ty = draft.ty ∧ node.status = "active"
            ∧ node.version = 1 ∧ node.confidence = 1
            ∧ node.evidenceCount = 1 ∧ node.confirmationCount = 1)
        ∧ (promoteToL2 scope draft artifact key uuid now db).2.l2fts
            = db.l2fts ++
              [⟨uuid, draft.title, draft.summary,
                String.intercalate " " draft.tags,
                String.intercalate " " draft.entities⟩]
        ∧ (∃ art, (promoteToL2 scope draft artifact key uuid now db).2.artifacts
              = db.artifacts ++ [art]
            ∧ art.memoryId = uuid ∧ art.kind = artifact.kind
            ∧ art.locator = artifact.locator
            ∧ art.snippetPolicy = artifact.snippetPolicy)) := by
  by_cases hty : draft.ty ∈ l2Types
  · by_cases hcl : draft.claims = []
    · refine ⟨?_, ?_, ?_, ?_⟩
      · simp [promoteToL2, hty, hcl]
      · intro _ _
        simp [promoteToL2, hty, hcl]
      · intro _
        simp [promoteToL2, hty, hcl]
      · intro _ hne
        exact absurd hcl hne
    · refine ⟨?_, ?_, ?_, ?_⟩
      · simp only [promoteToL2, if_neg (not_not_intro hty), if_neg hcl, hmiss]
        constructor
        · rintro ⟨msg, hmsg⟩
          simp at hmsg
        · rintro (h | h)
          · exact absurd hty h
          · exact absurd h hcl
      · intro _ h
        exact absurd h hcl
      · rintro (h | h)
        · exact absurd hty h
        · exact absurd h hcl
      · intro _ _
        refine ⟨?_,
          ⟨{ id := uuid, tenantId := scope.tenantId,
             workspaceId := scope.workspaceId, repoId := scope.repoId,
             module := scope.module, environment := scope.environment,
             ty := draft.ty, status := "active", version := 1,
             supersedesId := none, title := draft.title,
             summary := draft.summary, tagsJson := jsonStrList draft.tags,
             entitiesJson := jsonStrList draft.entities,
             claimsJson := jsonStrList draft.claims,
             applicabilityJson := jsonObjDump draft.applicability,
             confidence := 1.0, evidenceCount := 1, confirmationCount := 1,
             createdAt := now, updatedAt := now, lastConfirmedAt := now },
           ?_, rfl, rfl, rfl, rfl, by norm_num, rfl, rfl⟩, ?_,
          ⟨{ memoryId := uuid, layer := "L2", kind := artifact.kind,
             locator := artifact.locator, hash := artifact.hash,
             createdAt := now, classification := artifact.classification,
             snippetPolicy := artifact.snippetPolicy },
           ?_, rfl, rfl, rfl, rfl⟩⟩
        · simp [promoteToL2, hty, hcl, hmiss]
        · simp [promoteToL2, hty, hcl, hmiss, recordIdempotency]
        · simp [promoteToL2, hty, hcl, hmiss, recordIdempotency]
        · simp [promoteToL2, hty, hcl, hmiss, recordIdempotency]
  · refine ⟨?_, ?_, ?_, ?_⟩
    · simp only [promoteToL2, if_pos hty]
      constructor
      · intro _
        exact Or.inl hty
      · intro _
        exact ⟨"Invalid type", rfl⟩
    · intro h
      exact absurd h hty
    · intro _
      simp [promoteToL2, hty]
    · intro h
      exact absurd h hty

/-- C4 witness: the validation characterization at a concrete valid draft on
the empty database. -/
theorem promote_validation_and_effects_witness :
    (∃ msg, (promoteToL2 ⟨"t1", "w1", some "r1", none, none, none, none, none⟩
        ⟨"VerifiedFact", "T", "S", [], [], ["c1"], []⟩
        ⟨"x", "L2", "file", "loc", none, "public", "allowed"⟩
        "k" "U" "N" DB.empty).1
      = OpResult.errEnv "PROMOTION_VALIDATION_FAILED" msg)
    ↔ ("VerifiedFact" ∉ l2Types ∨ (["c1"] : List String) = []) :=
  (promote_validation_and_effects
    ⟨"t1", "w1", some "r1", none, none, none, none, none⟩
    ⟨"VerifiedFact", "T", "S", [], [], ["c1"], []⟩
    ⟨"x", "L2", "file", "loc", none, "public", "allowed"⟩
    "k" "U" "N" DB.empty rfl).1

/-- The edge primary-key test is reflexive. -/
lemma edgeSamePK_refl (e : EdgeRow) : edgeSamePK e e = true := by
  simp [edgeSamePK]

/-- After an `INSERT OR REPLACE`, the replaced edge is the unique row
matching its primary key. -/
lemma filter_insert_or_replace (l : List EdgeRow) (e : EdgeRow) :
    ((l.filter (fun x => !edgeSamePK x e)) ++ [e]).filter
        (fun x => edgeSamePK x e) = [e] := by
  rw [List.filter_append, List.filter_filter]
  simp [edgeSamePK_refl]

/-- C6: `link_memories` returns `NOT_FOUND` and inserts nothing when either
endpoint is missing from `memory_l2_nodes`; otherwise it performs an
insert-or-replace on the edge primary key `(tenant, workspace, from, rel,
to)` — so the new weight is the unique weight stored under that key — and
both endpoints exist in `memory_l2_nodes` at insert time. -/
theorem link_memories_spec (scope : Scope) (fromId toId rel : String)
    (weight : ℚ) (idempotencyKey : Option String) (now : String) (db : DB)
    (hmiss : ∀ k, idempotencyKey = some k →
      checkIdempotency db scope.tenantId k = none) :
    ((db.l2.find? (fun n => n.id == fromId) = none
        ∨ db.l2.find? (fun n => n.id == toId) = none) →
      (∃ msg, (linkMemories scope fromId toId rel weight idempotencyKey now db).1
          = OpResult.errEnv "NOT_FOUND" msg)
        ∧ (linkMemories scope fromId toId rel weight idempotencyKey now db).2 = db)
    ∧ (∀ nf nt, db.l2.find? (fun n => n.id == fromId) = some nf →
        db.l2.find? (fun n => n.id == toId) = some nt →
        (linkMemories scope fromId toId rel weight idempotencyKey now db).1
            = OpResult.linked fromId toId rel
        ∧ (linkMemories scope fromId toId rel weight idempotencyKey now db).2.edges
            = db.edges.filter (fun e => !edgeSamePK e
                ⟨scope.tenantId, scope.workspaceId, fromId, rel, toId, weight, now⟩)
              ++ [⟨scope.tenantId, scope.workspaceId, fromId, rel, toId, weight, now⟩]
        ∧ ((linkMemories scope fromId toId rel weight idempotencyKey now db).2.edges.filter
              (fun e => edgeSamePK e
                ⟨scope.tenantId, scope.workspaceId, fromId, rel, toId, weight, now⟩))
            = [⟨scope.tenantId, scope.workspaceId, fromId, rel, toId, weight, now⟩]
        ∧ (linkMemories scope fromId toId rel weight idempotencyKey now db).2.l2 = db.l2
        ∧ nf ∈ db.l2 ∧ nf.id = fromId ∧ nt ∈ db.l2 ∧ nt.id = toId) := by
  have hhit : idempotencyKey.bind
      (fun k => checkIdempotency db scope.tenantId k) = none := by
    cases idempotencyKey with
    | none => rfl
    | some k => exact hmiss k rfl
  constructor
  · rintro (hf | ht)
    · refine ⟨⟨"Source node " ++ fromId ++ " not found in L2", ?_⟩, ?_⟩ <;>
        simp [linkMemories, hhit, hf]
    · by_cases hf : db.l2.find? (fun n => n.id == fromId) = none
      · refine ⟨⟨"Source node " ++ fromId ++ " not found in L2", ?_⟩, ?_⟩ <;>
          simp [linkMemories, hhit, hf]
      · refine ⟨⟨"Target node " ++ toId ++ " not found in L2", ?_⟩, ?_⟩ <;>
          simp [linkMemories, hhit, hf, ht]
  · intro nf nt hf ht
    have hnf : nf ∈ db.l2 := List.mem_of_find?_eq_some hf
    have hnt : nt ∈ db.l2 := List.mem_of_find?_eq_some ht
    have hif : nf.id = fromId := by
      have := List.find?_some hf
      simpa using this
    have hit2 : nt.id = toId := by
      have := List.find?_some ht
      simpa using this
    refine ⟨?_, ?_, ?_, ?_, hnf, hif, hnt, hit2⟩
    · cases idempotencyKey with
      | none => simp [linkMemories, hf, ht]
      | some k => simp [linkMemories, hf, ht, hmiss k rfl]
    · cases idempotencyKey with
      | none => simp [linkMemories, hf, ht]
      | some k => simp [linkMemories, hf, ht, hmiss k rfl, recordIdempotency]
    · have hedges :
          (linkMemories scope fromId toId rel weight idempotencyKey now db).2.edges
            = db.edges.filter (fun e => !edgeSamePK e
                ⟨scope.tenantId, scope.workspaceId, fromId, rel, toId, weight, now⟩)
              ++ [⟨scope.tenantId, scope.workspaceId, fromId, rel, toId, weight, now⟩] := by
        cases idempotencyKey with
        | none => simp [linkMemories, hf, ht]
        | some k => simp [linkMemories, hf, ht, hmiss k rfl, recordIdempotency]
      rw [hedges]
      exact filter_insert_or_replace db.edges _
    · cases idempotencyKey with
      | none => simp [linkMemories, hf, ht]
      | some k => simp [linkMemories, hf, ht, hmiss k rfl, recordIdempotency]

/-- C6 witness: linking two existing L2 nodes returns the ok envelope, on a
concrete two-node database. -/
theorem link_memories_spec_witness :
    (linkMemories ⟨"t1", "w1", none, none, none, none, none, none⟩
        "A" "B" "RELATED_TO" 1 none "N"
        { DB.empty with
          l2 := [⟨"A", "t1", "w1", none, none, none, "VerifiedFact", "active",
                   1, none, "tA", "sA", "[]", "[]", "[]", "\x7b\x7d", 1, 1, 1,
                   "N", "N", "N"⟩,
                 ⟨"B", "t1", "w1", none, none, none, "VerifiedFact", "active",
                   1, none, "tB", "sB", "[]", "[]", "[]", "\x7b\x7d", 1, 1, 1,
                   "N", "N", "N"⟩] }).1
      = OpResult.linked "A" "B" "RELATED_TO" :=
  ((link_memories_spec ⟨"t1", "w1", none, none, none, none, none, none⟩
      "A" "B" "RELATED_TO" 1 none "N"
      { DB.empty with
        l2 := [⟨"A", "t1", "w1", none, none, none, "VerifiedFact", "active",
                 1, none, "tA", "sA", "[]", "[]", "[]", "\x7b\x7d", 1, 1, 1,
                 "N", "N", "N"⟩,
               ⟨"B", "t1", "w1", none, none, none, "VerifiedFact", "active",
                 1, none, "tB", "sB", "[]", "[]", "[]", "\x7b\x7d", 1, 1, 1,
                 "N", "N", "N"⟩] }
      (fun _ hk => Option.noConfusion hk)).2 _ _ rfl rfl).1

/-- A successful first call satisfies the static validation of the
operation. -/
lemma opSucceeds_static (op : Op) (s : DB) (h : opSucceeds op s) :
    opValidStatic op := by
  cases op with
  | upsert scope payload key distill a b c d => trivial
  | episode scope payload key u n => trivial
  | promote scope draft artifact key u n => exact h
  | link scope f t rel w key n => trivial

/-- A statically valid operation delivered against a state whose gate
already holds `(tenant, key)` returns the stored result verbatim and leaves
the whole database untouched. -/
lemma checkIdempotency_hit_run (op : Op) (s : DB) (r : OpResult)
    (hhit : checkIdempotency s (opTenant op) (opKey op) = some r)
    (hvalid : opValidStatic op) :
    runOp op s = (r, s) := by
  cases op with
  | upsert scope payload key distill a b c d =>
    simp only [opTenant, opKey] at hhit
    simp only [runOp, upsertEvent, hhit]
  | episode scope payload key u n =>
    simp only [opTenant, opKey] at hhit
    simp only [runOp, commitEpisode, hhit]
  | promote scope draft artifact key u n =>
    obtain ⟨hty, hcl⟩ := hvalid
    simp only [opTenant, opKey] at hhit
    simp [runOp, promoteToL2, hty, hcl, hhit]
  | link scope f t rel w key n =>
    simp only [opTenant, opKey] at hhit
    simp [runOp, linkMemories, hhit]

/-- After the record step the gate holds the result just recorded. -/
lemma checkIdempotency_after_record (idem0 : List (String × String × OpResult))
    (db : DB) (t k : String) (r : OpResult)
    (hnone : idem0.find? (fun e => e.1 == t && e.2.1 == k) = none)
    (hdb : db.idem = idem0 ++ [(t, k, r)]) :
    checkIdempotency db t k = some r := by
  unfold checkIdempotency
  rw [hdb, List.find?_append, hnone]
  simp

/-- C1: every key-taking mutating operation whose first delivery against
`s0` misses the gate and succeeds records its result in the same committed
state as its effects, and every replay (any count `n ≥ 1`, modelled by
`replayRun ... n` being the `(n+1)`-th delivery) returns exactly the recorded
result while writing nothing to any table: the state is unchanged. -/
theorem idempotency_replay (op : Op) (s0 : DB)
    (hmiss : checkIdempotency s0 (opTenant op) (opKey op) = none)
    (hok : opSucceeds op s0) :
    (runOp op s0).2.idem
        = s0.idem ++ [(opTenant op, opKey op, (runOp op s0).1)]
    ∧ checkIdempotency (runOp op s0).2 (opTenant op) (opKey op)
        = some (runOp op s0).1
    ∧ ∀ n : Nat, replayRun op (runOp op s0).2 n
        = ((runOp op s0).1, (runOp op s0).2) := by
  have hrec : (runOp op s0).2.idem
      = s0.idem ++ [(opTenant op, opKey op, (runOp op s0).1)] := by
    cases op with
    | upsert scope payload key distill a b c d =>
      simp only [opTenant, opKey] at hmiss ⊢
      cases distill <;>
        simp [runOp, upsertEvent, hmiss, recordIdempotency]
    | episode scope payload key u n =>
      simp only [opTenant, opKey] at hmiss ⊢
      simp only [runOp, commitEpisode, hmiss]
      split <;> simp [recordIdempotency]
    | promote scope draft artifact key u n =>
      obtain ⟨hty, hcl⟩ := hok
      simp only [opTenant, opKey] at hmiss ⊢
      simp [runOp, promoteToL2, hty, hcl, hmiss, recordIdempotency]
    | link scope f t rel w key n =>
      obtain ⟨hfs, hts⟩ := hok
      obtain ⟨nf, hf⟩ := Option.isSome_iff_exists.mp hfs
      obtain ⟨nt, ht⟩ := Option.isSome_iff_exists.mp hts
      simp only [opTenant, opKey] at hmiss ⊢
      simp [runOp, linkMemories, hf, ht, hmiss, recordIdempotency]
  have hn : s0.idem.find?
      (fun e => e.1 == opTenant op && e.2.1 == opKey op) = none := by
    unfold checkIdempotency at hmiss
    exact Option.map_eq_none'.mp hmiss
  have hhit1 : checkIdempotency (runOp op s0).2 (opTenant op) (opKey op)
      = some (runOp op s0).1 :=
    checkIdempotency_after_record s0.idem _ _ _ _ hn hrec
  have hstep : runOp op (runOp op s0).2 = ((runOp op s0).1, (runOp op s0).2) :=
    checkIdempotency_hit_run op _ _ hhit1 (opSucceeds_static op s0 hok)
  refine ⟨hrec, hhit1, ?_⟩
  intro n
  induction n with
  | zero => exact hstep
  | succ m ihm =>
    simp only [replayRun]
    rw [ihm]
    exact hstep

/-- C1 witness: a concrete `upsert_event` on the empty database records its
result, and the second and third deliveries return it unchanged. -/
theorem idempotency_replay_witness :
    checkIdempotency
        (runOp (Op.upsert ⟨"t1", "w1", none, none, none, none, none, none⟩
          ⟨"c", none⟩ "k1" false "A" "B" "N" "E") DB.empty).2
        (opTenant (Op.upsert ⟨"t1", "w1", none, none, none, none, none, none⟩
          ⟨"c", none⟩ "k1" false "A" "B" "N" "E"))
        (opKey (Op.upsert ⟨"t1", "w1", none, none, none, none, none, none⟩
          ⟨"c", none⟩ "k1" false "A" "B" "N" "E"))
      = some (runOp (Op.upsert ⟨"t1", "w1", none, none, none, none, none, none⟩
          ⟨"c", none⟩ "k1" false "A" "B" "N" "E") DB.empty).1
    ∧ replayRun (Op.upsert ⟨"t1", "w1", none, none, none, none, none, none⟩
          ⟨"c", none⟩ "k1" false "A" "B" "N" "E")
        (runOp (Op.upsert ⟨"t1", "w1", none, none, none, none, none, none⟩
          ⟨"c", none⟩ "k1" false "A" "B" "N" "E") DB.empty).2 1
      = ((runOp (Op.upsert ⟨"t1", "w1", none, none, none, none, none, none⟩
          ⟨"c", none⟩ "k1" false "A" "B" "N" "E") DB.empty).1,
         (runOp (Op.upsert ⟨"t1", "w1", none, none, none, none, none, none⟩
          ⟨"c", none⟩ "k1" false "A" "B" "N" "E") DB.empty).2) :=
  ⟨(idempotency_replay
      (Op.upsert ⟨"t1", "w1", none, none, none, none, none, none⟩
        ⟨"c", none⟩ "k1" false "A" "B" "N" "E") DB.empty rfl trivial).2.1,
   (idempotency_replay
      (Op.upsert ⟨"t1", "w1", none, none, none, none, none, none⟩
        ⟨"c", none⟩ "k1" false "A" "B" "N" "E") DB.empty rfl trivial).2.2 1⟩

/-- Association-list lookup is invariant under permutation when the keys are
duplicate-free (a Python dict always is). -/
lemma slookup_perm (k : String) :
    ∀ {l1 l2 : List (String × JVal)}, l1.Perm l2 →
      (l1.map Prod.fst).Nodup → slookup k l1 = slookup k l2 := by
  intro l1 l2 hp
  induction hp with
  | nil =>
    intro _
    rfl
  | cons x p ih =>
    intro hnd
    simp only [List.map_cons, List.nodup_cons] at hnd
    simp only [slookup]
    by_cases hk : x.1 = k
    · simp [hk]
    · simp only [if_neg hk]
      exact ih hnd.2
  | swap x y l =>
    intro hnd
    simp only [List.map_cons, List.nodup_cons, List.mem_cons] at hnd
    have hxy : y.1 ≠ x.1 := fun h => hnd.1 (Or.inl h)
    simp only [slookup]
    by_cases h1 : y.1 = k
    · have h2 : ¬x.1 = k := fun h => hxy (h1.trans h.symm)
      simp [h1, h2]
    · by_cases h2 : x.1 = k
      · simp [h1, h2]
      · simp [h1, h2]
  | trans p1 p2 ih1 ih2 =>
    intro hnd
    have hnd2 := ((p1.map Prod.fst).nodup_iff).mp hnd
    exact (ih1 hnd).trans (ih2 hnd2)

/-- The canonical (key-sorted) JSON encoding is invariant under reordering
of a duplicate-free selector dictionary. -/
lemma canonicalSelectorJson_perm (sel1 sel2 : List (String × JVal))
    (hp : sel1.Perm sel2) (hnd : (sel1.map Prod.fst).Nodup) :
    canonicalSelectorJson sel2 = canonicalSelectorJson sel1 := by
  unfold canonicalSelectorJson
  have hkeys : List.insertionSort (· ≤ ·) (sel2.map Prod.fst)
      = List.insertionSort (· ≤ ·) (sel1.map Prod.fst) := by
    apply List.eq_of_perm_of_sorted (r := (· ≤ · : String → String → Prop))
      ((List.perm_insertionSort _ _).trans
        (((hp.map Prod.fst).symm).trans (List.perm_insertionSort _ _).symm))
    · exact List.sorted_insertionSort _ _
    · exact List.sorted_insertionSort _ _
  rw [hkeys]
  have hlook : ∀ j, slookup j sel2 = slookup j sel1 :=
    fun j => (slookup_perm j hp hnd).symm
  simp only [hlook]

/-- C7: after every `forget_memory` call a tombstone row with
`selector_hash = SHA-256(canonical key-sorted JSON of the selector)` exists;
selectors differing only in key order hash identically; and a primary-key
collision on the tombstone insert is absorbed silently (the existing row is
kept and the call still returns its result). -/
theorem forget_tombstone_hash (sha256 : String → String) (scope : Scope)
    (selector : List (String × JVal)) (now : String) (db : DB) :
    (∃ tb ∈ (forgetMemory sha256 scope selector now db).2.tombstones,
        tb.tenantId = scope.tenantId ∧ tb.workspaceId = scope.workspaceId
          ∧ tb.selectorHash = computeSelectorHash sha256 selector)
    ∧ (forgetMemory sha256 scope selector now db).1.tombstoneHash
        = computeSelectorHash sha256 selector
    ∧ (∀ selector', selector.Perm selector' →
        (selector.map Prod.fst).Nodup →
        computeSelectorHash sha256 selector'
          = computeSelectorHash sha256 selector)
    ∧ (db.tombstones.any (fun tb =>
          tb.tenantId == scope.tenantId
            && tb.workspaceId == scope.workspaceId
            && tb.selectorHash == computeSelectorHash sha256 selector) = true →
        (forgetMemory sha256 scope selector now db).2.tombstones
          = db.tombstones) := by
  refine ⟨?_, rfl, ?_, ?_⟩
  · by_cases hany : db.tombstones.any (fun tb =>
        tb.tenantId == scope.tenantId && tb.workspaceId == scope.workspaceId
          && tb.selectorHash == computeSelectorHash sha256 selector) = true
    · obtain ⟨tb, htb, hpred⟩ := List.any_eq_true.mp hany
      refine ⟨tb, ?_, ?_⟩
      · simp [forgetMemory, hany, htb]
      · simp only [Bool.and_eq_true, beq_iff_eq] at hpred
        exact ⟨hpred.1.1, hpred.1.2, hpred.2⟩
    · refine ⟨⟨scope.tenantId, scope.workspaceId,
        computeSelectorHash sha256 selector, now⟩, ?_, rfl, rfl, rfl⟩
      simp [forgetMemory, hany]
  · intro selector' hp hnd
    unfold computeSelectorHash
    exact congrArg sha256 (canonicalSelectorJson_perm selector selector' hp hnd)
  · intro hany
    simp [forgetMemory, hany]

/-- C7 witness: a concrete forget call on the empty database leaves a
tombstone whose hash is that of the canonical selector JSON, and the hash is
independent of the selector's key order. -/
theorem forget_tombstone_hash_witness :
    (forgetMemory (fun s => s)
        ⟨"t1", "w1", none, none, none, none, none, none⟩
        [("user_id", JVal.s "u1"), ("end_time", JVal.s "2025")]
        "N" DB.empty).1.tombstoneHash
      = computeSelectorHash (fun s => s)
          [("user_id", JVal.s "u1"), ("end_time", JVal.s "2025")]
    ∧ computeSelectorHash (fun s => s)
          [("end_time", JVal.s "2025"), ("user_id", JVal.s "u1")]
        = computeSelectorHash (fun s => s)
          [("user_id", JVal.s "u1"), ("end_time", JVal.s "2025")] :=
  ⟨(forget_tombstone_hash (fun s => s)
      ⟨"t1", "w1", none, none, none, none, none, none⟩
      [("user_id", JVal.s "u1"), ("end_time", JVal.s "2025")]
      "N" DB.empty).2.1,
   (forget_tombstone_hash (fun s => s)
      ⟨"t1", "w1", none, none, none, none, none, none⟩
      [("user_id", JVal.s "u1"), ("end_time", JVal.s "2025")]
      "N" DB.empty).2.2.1
     [("end_time", JVal.s "2025"), ("user_id", JVal.s "u1")]
     (by decide) (by decide)⟩

/-- Archiving against a concatenated id list is the composition of the two
archive updates. -/
lemma archiveIfIn_append (ids1 ids2 : List String) (r : L1Row) :
    archiveIfIn ids2 (archiveIfIn ids1 r) = archiveIfIn (ids1 ++ ids2) r := by
  unfold archiveIfIn
  by_cases h1 : ids1.contains r.id = true <;>
    by_cases h2 : ids2.contains r.id = true <;>
      simp [h1, h2, List.contains_eq_any_beq, List.any_append] at * <;>
        simp [h1, h2]

/-- A row whose id is outside the id list is untouched by the archive
update. -/
lemma archiveIfIn_fresh (ids : List String) (r : L1Row)
    (h : r.id ∉ ids) : archiveIfIn ids r = r := by
  simp [archiveIfIn, h]

/-- Characterization of the compaction fold: groups of size < 2 are skipped;
each group of size ≥ 2 mints one episode (with consecutive environment
draws) and archives its member ids; the counters accumulate accordingly. -/
lemma gcFold_char (scope : Scope) (uuidAt nowAt : Nat → String) :
    ∀ (gs : List (GroupKey × List L1Row)) (st : GcState),
      (∀ i, st.idx ≤ i → ∀ g ∈ gs, ∀ r ∈ g.2, uuidAt i ≠ r.id) →
      ((gs.foldl (gcStep scope uuidAt nowAt) st).db.l1
          = st.db.l1.map (archiveIfIn
              (((gs.filter (fun x => decide (2 ≤ x.2.length))).map
                (fun x => x.2.map (fun r => r.id))).flatten))
            ++ mkEpisodes scope uuidAt nowAt st.idx
                (gs.filter (fun x => decide (2 ≤ x.2.length))))
      ∧ (gs.foldl (gcStep scope uuidAt nowAt) st).db.l1fts
          = st.db.l1fts ++ mkEpisodeFts uuidAt nowAt st.idx
              (gs.filter (fun x => decide (2 ≤ x.2.length)))
      ∧ (gs.foldl (gcStep scope uuidAt nowAt) st).compacted
          = st.compacted + ((gs.filter (fun x => decide (2 ≤ x.2.length))).map
              (fun x => x.2.length)).sum
      ∧ (gs.foldl (gcStep scope uuidAt nowAt) st).episodes
          = st.episodes + (gs.filter (fun x => decide (2 ≤ x.2.length))).length
      ∧ (gs.foldl (gcStep scope uuidAt nowAt) st).idx
          = st.idx + (gs.filter (fun x => decide (2 ≤ x.2.length))).length := by
  intro gs
  induction gs with
  | nil =>
    intro st _
    refine ⟨?_, by simp [mkEpisodeFts], by simp, by simp, by simp⟩
    simp only [List.foldl_nil, List.filter_nil, List.map_nil, List.flatten_nil,
      mkEpisodes, List.append_nil]
    have hfun : archiveIfIn [] = fun r => r :=
      funext (fun r => archiveIfIn_fresh [] r (by simp))
    rw [hfun, List.map_id']
  | cons g gs ihg =>
    intro st hfresh
    by_cases hlen : g.2.length < 2
    · have hstep : gcStep scope uuidAt nowAt st g = st := by
        simp [gcStep, hlen]
      have hfilter : (g :: gs).filter (fun x => decide (2 ≤ x.2.length))
          = gs.filter (fun x => decide (2 ≤ x.2.length)) := by
        rw [List.filter_cons]
        simp only [decide_eq_true_eq]
        rw [if_neg (by omega)]
      rw [List.foldl_cons, hstep, hfilter]
      exact ihg st (fun i hi g' hg' => hfresh i hi g' (List.mem_cons_of_mem _ hg'))
    · have hfilter : (g :: gs).filter (fun x => decide (2 ≤ x.2.length))
          = g :: gs.filter (fun x => decide (2 ≤ x.2.length)) := by
        rw [List.filter_cons]
        simp only [decide_eq_true_eq]
        rw [if_pos (by omega)]
      have hl1 : (gcStep scope uuidAt nowAt st g).db.l1
          = (st.db.l1 ++ [mkEpisodeRow scope g (uuidAt st.idx) (nowAt st.idx)]).map
              (archiveIfIn (g.2.map (fun r => r.id))) := by
        simp [gcStep, hlen]
      have hfts : (gcStep scope uuidAt nowAt st g).db.l1fts
          = st.db.l1fts
            ++ [⟨uuidAt st.idx, episodeTitle g, episodeSummaryText g, "", ""⟩] := by
        simp [gcStep, hlen]
      have hidx : (gcStep scope uuidAt nowAt st g).idx = st.idx + 1 := by
        simp [gcStep, hlen]
      have hcom : (gcStep scope uuidAt nowAt st g).compacted
          = st.compacted + g.2.length := by
        simp [gcStep, hlen]
      have heps : (gcStep scope uuidAt nowAt st g).episodes
          = st.episodes + 1 := by
        simp [gcStep, hlen]
      have hfresh1 : ∀ i, (gcStep scope uuidAt nowAt st g).idx ≤ i →
          ∀ g' ∈ gs, ∀ r ∈ g'.2, uuidAt i ≠ r.id := by
        intro i hi g' hg' r hr
        rw [hidx] at hi
        exact hfresh i (by omega) g' (List.mem_cons_of_mem _ hg') r hr
      obtain ⟨ih1, ih2, ih3, ih4, ih5⟩ :=
        ihg (gcStep scope uuidAt nowAt st g) hfresh1
      have hfreshSelf : ∀ a ∈ g.2.map (fun r => r.id), uuidAt st.idx ≠ a := by
        intro a ha
        obtain ⟨r, hr, hra⟩ := List.mem_map.mp ha
        rw [← hra]
        exact hfresh st.idx (le_refl _) g (List.mem_cons_self _ _) r hr
      have hfreshRest : ∀ a ∈
          ((gs.filter (fun x => decide (2 ≤ x.2.length))).map
            (fun x => x.2.map (fun r => r.id))).flatten, uuidAt st.idx ≠ a := by
        intro a ha
        obtain ⟨ids, hids, haids⟩ := List.mem_flatten.mp ha
        obtain ⟨g', hg', hgids⟩ := List.mem_map.mp hids
        obtain ⟨r, hr, hra⟩ := List.mem_map.mp (hgids ▸ haids)
        rw [← hra]
        exact hfresh st.idx (le_refl _) g'
          (List.mem_cons_of_mem _ (List.mem_of_mem_filter hg')) r hr
      refine ⟨?_, ?_, ?_, ?_, ?_⟩
      · rw [List.foldl_cons, ih1, hl1, hidx, hfilter]
        rw [List.map_map, List.map_append]
        have hcomp : (archiveIfIn
              (((gs.filter (fun x => decide (2 ≤ x.2.length))).map
                (fun x => x.2.map (fun r => r.id))).flatten))
            ∘ (archiveIfIn (g.2.map (fun r => r.id)))
            = archiveIfIn ((g.2.map (fun r => r.id))
                ++ ((gs.filter (fun x => decide (2 ≤ x.2.length))).map
                  (fun x => x.2.map (fun r => r.id))).flatten) :=
          funext (fun r => archiveIfIn_append _ _ r)
        rw [hcomp]
        have hepid : archiveIfIn ((g.2.map (fun r => r.id))
              ++ ((gs.filter (fun x => decide (2 ≤ x.2.length))).map
                (fun x => x.2.map (fun r => r.id))).flatten)
            (mkEpisodeRow scope g (uuidAt st.idx) (nowAt st.idx))
            = mkEpisodeRow scope g (uuidAt st.idx) (nowAt st.idx) := by
          apply archiveIfIn_fresh
          intro hmem
          rcases List.mem_append.mp hmem with h | h
          · exact hfreshSelf _ h rfl
          · exact hfreshRest _ h rfl
        simp only [List.map_cons, List.map_nil, hepid]
        rw [mkEpisodes]
        simp only [List.map_cons, List.flatten_cons]
        simp [List.append_assoc]
      · rw [List.foldl_cons, ih2, hfts, hidx, hfilter, mkEpisodeFts]
        simp [List.append_assoc]
      · rw [List.foldl_cons, ih3, hcom, hfilter]
        simp only [List.map_cons, List.sum_cons]
        omega
      · rw [List.foldl_cons, ih4, heps, hfilter]
        simp only [List.length_cons]
        omega
      · rw [List.foldl_cons, ih5, hidx, hfilter]
        simp only [List.length_cons]
        omega

/-- C8: `gc_compact` groups the scope's active Observations by
`(day, repo_id, module)`; it archives exactly the member ids of the groups of
size ≥ 2 and appends exactly one EpisodeSummary per such group, with the
claimed title, summary, confidence 0.8, evidence_count = N and
confirmation_count = 1; groups of size 1 are left unchanged; the returned
counts are the totals of archived observations and created episodes. -/
theorem gc_compact_spec (scope : Scope) (uuidAt nowAt : Nat → String)
    (db : DB) (hfresh : ∀ i, ∀ r ∈ db.l1, uuidAt i ≠ r.id) :
    (gcCompact (some scope) uuidAt nowAt db).1
        = GcResult.ok ((bigGroups scope db).map (fun g => g.2.length)).sum
            (bigGroups scope db).length
    ∧ (gcCompact (some scope) uuidAt nowAt db).2.l1
        = db.l1.map (archiveIfIn (((bigGroups scope db).map
            (fun g => g.2.map (fun r => r.id))).flatten))
          ++ mkEpisodes scope uuidAt nowAt 0 (bigGroups scope db)
    ∧ (gcCompact (some scope) uuidAt nowAt db).2.l1fts
        = db.l1fts ++ mkEpisodeFts uuidAt nowAt 0 (bigGroups scope db)
    ∧ (∀ g : GroupKey × List L1Row, ∀ u v : String,
        (mkEpisodeRow scope g u v).title
            = "Episode: " ++ g.1.day ++ " - "
              ++ (match g.1.module with
                  | some m => if m = "" then "General" else m
                  | none => "General")
        ∧ (mkEpisodeRow scope g u v).summary
            = "Compacted " ++ toString g.2.length ++ " observations. Content: "
              ++ (String.intercalate " || " (g.2.map (fun r => r.summary))).take 200
              ++ "..."
        ∧ (mkEpisodeRow scope g u v).ty = "EpisodeSummary"
        ∧ (mkEpisodeRow scope g u v).status = "active"
        ∧ (mkEpisodeRow scope g u v).confidence = 0.8
        ∧ (mkEpisodeRow scope g u v).evidenceCount = g.2.length
        ∧ (mkEpisodeRow scope g u v).confirmationCount = 1
        ∧ (mkEpisodeRow scope g u v).createdAt = v
        ∧ (mkEpisodeRow scope g u v).updatedAt = v
        ∧ (mkEpisodeRow scope g u v).lastConfirmedAt = v)
    ∧ ((db.l1.map (fun r => r.id)).Nodup →
        ∀ g ∈ gcGroups (obsRows scope db), g.2.length < 2 →
        ∀ r ∈ g.2, r ∈ (gcCompact (some scope) uuidAt nowAt db).2.l1) := by
  have hmem : ∀ g ∈ gcGroups (obsRows scope db), ∀ r ∈ g.2, r ∈ db.l1 := by
    intro g hg r hr
    obtain ⟨k, _, hgk⟩ := List.mem_map.mp hg
    rw [← hgk] at hr
    exact List.mem_of_mem_filter (List.mem_of_mem_filter hr)
  have hf2 : ∀ i, (⟨db, 0, 0, 0⟩ : GcState).idx ≤ i →
      ∀ g ∈ gcGroups (obsRows scope db), ∀ r ∈ g.2, uuidAt i ≠ r.id :=
    fun i _ g hg r hr => hfresh i r (hmem g hg r hr)
  obtain ⟨h1, h2, h3, h4, h5⟩ :=
    gcFold_char scope uuidAt nowAt (gcGroups (obsRows scope db))
      ⟨db, 0, 0, 0⟩ hf2
  have hl1 : (gcCompact (some scope) uuidAt nowAt db).2.l1
      = db.l1.map (archiveIfIn (((bigGroups scope db).map
          (fun g => g.2.map (fun r => r.id))).flatten))
        ++ mkEpisodes scope uuidAt nowAt 0 (bigGroups scope db) := by
    simp only [gcCompact, bigGroups]
    exact h1
  refine ⟨?_, hl1, ?_, ?_, ?_⟩
  · simp only [gcCompact, bigGroups]
    rw [h3, h4]
    simp
  · simp only [gcCompact, bigGroups]
    exact h2
  · intro g u v
    refine ⟨rfl, rfl, rfl, rfl, rfl, rfl, rfl, rfl, rfl, rfl⟩
  · intro hnodup g hg hsmall r hr
    rw [hl1]
    apply List.mem_append_left
    have hfreshr : archiveIfIn (((bigGroups scope db).map
        (fun g => g.2.map (fun r => r.id))).flatten) r = r := by
      apply archiveIfIn_fresh
      intro hmemids
      obtain ⟨ids, hids, hrids⟩ := List.mem_flatten.mp hmemids
      obtain ⟨g', hg', hgids⟩ := List.mem_map.mp hids
      obtain ⟨r', hr', hrid⟩ := List.mem_map.mp (hgids ▸ hrids)
      have hg'mem : g' ∈ gcGroups (obsRows scope db) :=
        List.mem_of_mem_filter hg'
      have hr'db : r' ∈ db.l1 := hmem g' hg'mem r' hr'
      have hrdb : r ∈ db.l1 := hmem g hg r hr
      have hreq : r' = r :=
        List.inj_on_of_nodup_map hnodup hr'db hrdb hrid
      -- r is a member of both its small group g and the big group g'
      obtain ⟨k, _, hgk⟩ := List.mem_map.mp hg
      obtain ⟨k', _, hgk'⟩ := List.mem_map.mp hg'mem
      have hkey : obsGroupKey r = g.1 := by
        rw [← hgk] at hr
        have := (List.mem_filter.mp hr).2
        simp only [decide_eq_true_eq] at this
        rw [this, ← hgk]
      have hkey' : obsGroupKey r = g'.1 := by
        rw [hreq] at hr'
        rw [← hgk'] at hr'
        have := (List.mem_filter.mp hr').2
        simp only [decide_eq_true_eq] at this
        rw [this, ← hgk']
      have hsame2 : g.2 = g'.2 := by
        rw [← hgk, ← hgk']
        simp only
        rw [show k = k' from by
          have e1 : k = g.1 := by rw [← hgk]
          have e2 : k' = g'.1 := by rw [← hgk']
          rw [e1, e2, ← hkey, ← hkey']]
      have hbig : 2 ≤ g.2.length := by
        rw [hsame2]
        have := (List.mem_filter.mp hg').2
        simpa using this
      omega
    rw [← hfreshr]
    exact List.mem_map_of_mem _ (hmem g hg r hr)

/-- C8 witness: compacting two same-day same-module Observations archives
both and creates one EpisodeSummary, so the returned counts are (2, 1). -/
theorem gc_compact_spec_witness :
    (gcCompact (some ⟨"t1", "w1", some "r1", some "core", none, none, none, none⟩)
        (fun _ => "EP") (fun _ => "NOW2")
        { DB.empty with
          l1 := [⟨"o1", "t1", "w1", some "r1", some "core", none, none, none,
                   none, "Observation", "active", "T1", "S1", "[]", "[]", "[]",
                   "\x7b\x7d", 1, 0, 1, "2025-01-01T10:00:00",
                   "2025-01-01T10:00:00", "2025-01-01T10:00:00"⟩,
                 ⟨"o2", "t1", "w1", some "r1", some "core", none, none, none,
                   none, "Observation", "active", "T2", "S2", "[]", "[]", "[]",
                   "\x7b\x7d", 1, 0, 1, "2025-01-01T11:00:00",
                   "2025-01-01T11:00:00", "2025-01-01T11:00:00"⟩] }).1
      = GcResult.ok 2 1 := by
  have h := (gc_compact_spec
    ⟨"t1", "w1", some "r1", some "core", none, none, none, none⟩
    (fun _ => "EP") (fun _ => "NOW2")
    { DB.empty with
      l1 := [⟨"o1", "t1", "w1", some "r1", some "core", none, none, none,
               none, "Observation", "active", "T1", "S1", "[]", "[]", "[]",
               "\x7b\x7d", 1, 0, 1, "2025-01-01T10:00:00",
               "2025-01-01T10:00:00", "2025-01-01T10:00:00"⟩,
             ⟨"o2", "t1", "w1", some "r1", some "core", none, none, none,
               none, "Observation", "active", "T2", "S2", "[]", "[]", "[]",
               "\x7b\x7d", 1, 0, 1, "2025-01-01T11:00:00",
               "2025-01-01T11:00:00", "2025-01-01T11:00:00"⟩] }
    (by
      intro i r hr
      simp only [List.mem_cons, List.not_mem_nil, or_false] at hr
      rcases hr with h | h <;> subst h <;> simp)).1
  rw [h]
  rfl

end Hippomem
